import Mathlib

/-!
Verification of the probing observability agent (Python sources) against its
natural-language specification.  The Python code is shallowly embedded:
mutable module globals and object attributes become fields of explicit state
structures, hook methods become state-transition functions, fallible calls
return Except/Option, and ambient inputs (wall clock, device events, memory
counters, the live call stack) are passed in explicitly per invocation.
-/

namespace Probing

/-! ## Table registry and the dataclass-as-table decorator

Source: src/python/probing/core/table.py (the decorator and init_table).
The storage side (probing.ExternalTable) is native code that is not part of
the Python sources, so its create/get behaviour is modelled from the spec.
-/

/-- A table handle: a registered table with a creation identity, its name and
its ordered field list.  Two handles are the same handle exactly when their
creation identities agree. -/
structure PyTable where
  tid : Nat
  name : String
  fields : List String
deriving DecidableEq, Repr

/-- The process-wide registry of external tables. -/
structure Registry where
  nextId : Nat
  tables : List PyTable
deriving DecidableEq, Repr

/-- Look up a table by name in the registry. -/
def Registry.getTable (r : Registry) (n : String) : Option PyTable :=
  r.tables.find? (fun t => t.name == n)

/-- Errors surfaced by the table layer. -/
inductive TableErr where
  | alreadyExists
  | valueError
deriving DecidableEq, Repr

/-- Modelled from the spec: the native probing.ExternalTable.get, absent from
the Python sources.  It returns the handle registered under the name, and
fails when no table of that name exists. -/
def ExternalTable.get (r : Registry) (n : String) : Option PyTable :=
  r.getTable n

/-- Modelled from the spec: the native probing.ExternalTable constructor
(create), absent from the Python sources.  Per the spec, create fails with
AlreadyExists if the name is taken and the existing schema differs from the
requested schema; if identical, it returns the existing handle idempotently;
otherwise it registers a fresh table. -/
def ExternalTable.create (r : Registry) (n : String) (fields : List String) :
    Except TableErr (Registry × PyTable) :=
  match r.getTable n with
  | some t => if t.fields = fields then .ok (r, t) else .error .alreadyExists
  | none =>
      let t : PyTable := ⟨r.nextId, n, fields⟩
      .ok (⟨r.nextId + 1, r.tables ++ [t]⟩, t)

/-- Embedding of init_table from src/python/probing/core/table.py.  The
Python body wraps get in try/except: when get succeeds but the field lists
differ it raises ValueError, but that ValueError is raised inside the same
try block and is caught by the except clause, which then calls the native
constructor; only an error escaping the constructor propagates. -/
def init_table (r : Registry) (table_name : String) (fields : List String) :
    Except TableErr (Registry × PyTable) :=
  match ExternalTable.get r table_name with
  | some t =>
      if t.fields = fields then
        .ok (r, t)
      else
        -- ValueError raised, caught by the except clause: fall through to create
        ExternalTable.create r table_name fields
  | none =>
      -- get raised, caught by the except clause: fall through to create
      ExternalTable.create r table_name fields

/-! ## Shared tracer core

Both tracer variants (src/python/probing/profiling/types.py and
src/python/probing/torch/tracer/types.py) keep three module-level globals:
MODULE_CALL_OFFSET, CURRENT_MODULE and CURRENT_STAGE, and share the same
process_hook body.  Python object identities id(module) are modelled as
natural numbers. -/

/-- The six hook stages; the Python code passes them as the strings
"pre forward", "post forward", "pre backward", "post backward", "pre step"
and "post step". -/
inductive Stage where
  | preForward
  | postForward
  | preBackward
  | postBackward
  | preStep
  | postStep
deriving DecidableEq, BEq, Repr

/-- Models stage.startswith with the word pre, used by log_module_stage. -/
def Stage.isPre : Stage → Bool
  | .preForward => true
  | .preBackward => true
  | .preStep => true
  | _ => false

/-- The module-level tracer globals shared by the hook methods. -/
structure TracerCore where
  moduleCallOffset : Nat
  currentModule : Option Nat
  currentStage : Option Stage
deriving DecidableEq, Repr

/-- Initial values of the module globals: MODULE_CALL_OFFSET = 0,
CURRENT_MODULE = None, CURRENT_STAGE = None. -/
def TracerCore.init : TracerCore := ⟨0, none, none⟩

/-- Embedding of BaseTracer.process_hook (identical in both variants): the
offset counter advances, and the (module, stage) pair is recorded, exactly
when the pair differs from the stored pair. -/
def process_hook (c : TracerCore) (mid : Nat) (stage : Stage) : TracerCore :=
  if c.currentModule ≠ some mid ∨ c.currentStage ≠ some stage then
    { moduleCallOffset := c.moduleCallOffset + 1
      currentModule := some mid
      currentStage := some stage }
  else
    c

/-! ## TorchProbe (src/python/probing/profiling/torch_probe.py)

The profiling tracer stack: BaseTracer (profiling/types.py) mixed with
Timer, Sampler, PythonTracer and VariableTracer.  Device memory counters,
the wall clock, CUDA events, the resolved module name and the rows read off
the live call stack are ambient inputs of each hook invocation, supplied in
a HookEnv value.  Floating point quantities are modelled as rationals. -/

/-- Stage groups used as device-timer keys: STAGEMAP collapses the pre/post
pairs of a stage into one key. -/
inductive SGroup where
  | forward
  | backward
  | step
deriving DecidableEq, BEq, Repr

/-- Embedding of the STAGEMAP dictionary. -/
def STAGEMAP : Stage → SGroup
  | .preForward => .forward
  | .postForward => .forward
  | .preBackward => .backward
  | .postBackward => .backward
  | .preStep => .step
  | .postStep => .step

/-- A CUDA timing event: the device timestamp it will resolve to (in
milliseconds) and whether elapsed-time queries on it succeed.  An event pair
whose members are not both ready makes elapsed_time raise. -/
structure DevEvent where
  time : Rat
  ready : Bool
deriving DecidableEq, Repr

/-- Models torch.cuda.Event.elapsed_time: the elapsed milliseconds between
two events, or none when the query raises. -/
def elapsedTime (a b : DevEvent) : Option Rat :=
  if a.ready && b.ready then some (b.time - a.time) else none

/-- The device memory counters read by mem_stats, in MB. -/
structure MemStats where
  allocated : Rat
  maxAllocated : Rat
  cached : Rat
  maxCached : Rat
deriving DecidableEq, Repr

/-- A row of the Variables table (step, func, name, value). -/
structure VarRow where
  step : Nat
  func : String
  name : String
  value : String
deriving DecidableEq, Repr

/-- Ambient inputs of one hook invocation: the wall-clock reading, the device
memory counters, the CUDA event a call to torch.cuda.Event would record, the
module name the sampler would resolve for the hooked module (the value of
module_name(mod) with its fallbacks), and the variable rows trace_variables
would read off the live call stack. -/
structure HookEnv where
  now : Rat
  mem : MemStats
  ev : DevEvent
  modName : String
  stackRows : List VarRow
deriving DecidableEq, Repr

/-- Embedding of the TorchTrace dataclass rows (torch_probe.py).  In the
Python code the four identity fields default to None and are always assigned
before the record is queued, so they are modelled as plain fields. -/
structure TorchTrace where
  step : Nat
  seq : Nat
  module : String
  stage : Stage
  allocated : Rat
  maxAllocated : Rat
  cached : Rat
  maxCached : Rat
  timeOffset : Rat
  duration : Rat
deriving DecidableEq, Repr

/-- Embedding of DelayedRecord: a queued trace row plus the optional device
event pair it is waiting on. -/
structure DelayedRecord where
  record : TorchTrace
  events : Option (DevEvent × DevEvent)
deriving DecidableEq, Repr

/-- Update of a Python dict entry: replace the value under an existing key,
otherwise append the binding (insertion order preserved). -/
def dictSet {κ β : Type} [BEq κ] (l : List (κ × β)) (k : κ) (v : β) : List (κ × β) :=
  if l.any (fun p => p.1 == k) then
    l.map (fun p => if p.1 == k then (k, v) else p)
  else
    l ++ [(k, v)]

/-- Lookup in a Python dict modelled as an association list. -/
def dictGet {κ β : Type} [BEq κ] (l : List (κ × β)) (k : κ) : Option β :=
  match l.find? (fun p => p.1 == k) with
  | some p => some p.2
  | none => none

/-- Stable insertion into a list sorted by name length: the element passes
the strictly shorter names and stops before the first name of no smaller
length, so an earlier element keeps its priority among equals. -/
def insByNameLen (a : Nat × String) : List (Nat × String) → List (Nat × String)
  | [] => [a]
  | b :: bs =>
      if b.2.length < a.2.length then b :: insByNameLen a bs
      else a :: b :: bs

/-- Stable sort by name length ascending, the behaviour of the Python
sorted(key=length of the name) call in discovery finalisation. -/
def sortByNameLen : List (Nat × String) → List (Nat × String)
  | [] => []
  | x :: xs => insByNameLen x (sortByNameLen xs)

/-- State of a TorchProbe instance together with the module-level globals it
reads and writes.  random.random() draws are modelled by consuming a
pre-supplied stream of rationals. -/
structure ProbeState where
  core : TracerCore
  optimIter : Nat
  hasCuda : Bool
  sync : Bool
  events : List ((Nat × SGroup) × DevEvent)
  stepStart : Rat
  mode : String
  rate : Rat
  modNames : List (Nat × String)
  modQueue : List Nat
  currIdx : Nat
  currMod : Option Nat
  finalized : Bool
  sampledStep : Bool
  variabls : List (String × List String)
  currStep : Nat
  pending : List DelayedRecord
  saved : List TorchTrace
  varRows : List VarRow
  rng : List Rat
deriving DecidableEq, Repr

namespace Probe

/-- Consume the next random.random() draw. -/
def draw (s : ProbeState) : Rat × ProbeState :=
  match s.rng with
  | [] => (0, s)
  | r :: rest => (r, { s with rng := rest })

/-- Embedding of Sampler.register_mod: record the resolved name of a module
during discovery; a no-op once discovery is finalised. -/
def register_mod (s : ProbeState) (mid : Nat) (name : String) : ProbeState :=
  if s.finalized then s
  else { s with modNames := dictSet s.modNames mid name }

/-- Embedding of Sampler.finalize_discovery: sort the discovered modules by
name length ascending (Python sorted is a stable sort by the key, modelled
here by a stable insertion sort) and point the round-robin cursor at the
first one. -/
def finalize_discovery (s : ProbeState) : ProbeState :=
  let mods := sortByNameLen s.modNames
  let queue := mods.map Prod.fst
  let s := { s with finalized := true, modQueue := queue }
  match queue with
  | [] => s
  | m :: _ => { s with currIdx := 0, currMod := some m }

/-- Embedding of Sampler.should_sample, which both decides sampling and, in
the discovery phase, registers the module as a side effect. -/
def should_sample (s : ProbeState) (mid : Nat) (name : String) :
    Bool × ProbeState :=
  if !s.finalized then
    (false, register_mod s mid name)
  else if !s.sampledStep then
    (false, s)
  else if s.core.moduleCallOffset == 0 then
    (true, s)
  else if s.mode == "ordered" then
    (s.currMod == some mid, s)
  else
    let (r, s) := draw s
    (decide (r < s.rate), s)

/-- Embedding of Sampler.next_mod: redraw whether the coming step is sampled
and advance the round-robin cursor. -/
def next_mod (s : ProbeState) : ProbeState :=
  if !s.modQueue.isEmpty && s.mode == "ordered" then
    let (r, s) := draw s
    let s := { s with sampledStep := decide (r < s.rate) }
    let idx := (s.currIdx + 1) % s.modQueue.length
    { s with currIdx := idx, currMod := s.modQueue.get? idx }
  else
    s

/-- Embedding of Timer.begin_timing: on the first observation of the step
record the step start, register a device event under the stage-group key,
and return the wall-time offset. -/
def begin_timing (s : ProbeState) (mid : Nat) (stage : Stage) (env : HookEnv) :
    Rat × ProbeState :=
  let (off, s) :=
    if s.core.moduleCallOffset == 0 then
      (0, { s with stepStart := env.now })
    else
      (env.now - s.stepStart, s)
  if s.hasCuda then
    (off, { s with events := dictSet s.events (mid, STAGEMAP stage) env.ev })
  else
    (off, s)

/-- Embedding of Timer.end_timing: pop the matching begin event, if any, and
pair it with a fresh end event. -/
def end_timing (s : ProbeState) (mid : Nat) (stage : Stage) (env : HookEnv) :
    Rat × Option (DevEvent × DevEvent) × ProbeState :=
  let off := env.now - s.stepStart
  let key : Nat × SGroup := (mid, STAGEMAP stage)
  match dictGet s.events key with
  | some e =>
      (off, some (e, env.ev),
        { s with events := s.events.filter (fun p => p.1 != key) })
  | none => (off, none, s)

/-- Embedding of mem_stats composed with the four field assignments that
TorchProbe.log_module_stage performs on the fresh record before queueing it
(step, seq, module and stage; time_offset and duration start at 0). -/
def build_record (s : ProbeState) (stage : Stage) (mid : Nat) (env : HookEnv) :
    TorchTrace :=
  { step := s.currStep
    seq := s.core.moduleCallOffset
    module := (dictGet s.modNames mid).getD "None"
    stage := stage
    allocated := env.mem.allocated
    maxAllocated := env.mem.maxAllocated
    cached := env.mem.cached
    maxCached := env.mem.maxCached
    timeOffset := 0
    duration := 0 }

/-- Embedding of TorchProbe.log_module_stage: unless forced, ask the sampler
(which registers the module during discovery); on emission queue a
DelayedRecord, with no event pair on pre stages and with the event pair
returned by end_timing on post stages. -/
def log_module_stage (s : ProbeState) (stage : Stage) (mid : Nat)
    (force : Bool) (env : HookEnv) : ProbeState :=
  let (skip, s) :=
    if force then
      (false, s)
    else
      let (b, s) := should_sample s mid env.modName
      (!b, s)
  if skip then s
  else
    let record := build_record s stage mid env
    if stage.isPre then
      let (off, s) := begin_timing s mid stage env
      { s with pending := s.pending ++ [⟨{ record with timeOffset := off }, none⟩] }
    else
      let (off, evs, s) := end_timing s mid stage env
      { s with pending := s.pending ++ [⟨{ record with timeOffset := off }, evs⟩] }

/-- Embedding of DelayedRecord.save: finalise the duration from the event
pair when one is present and append the row to the trace table; a raising
elapsed-time query is caught and the row is dropped.  The Python method has
no return statement, so every path returns None (modelled as Option.none of
Unit), which is what the drain comprehension tests for truthiness. -/
def saveDelayed (d : DelayedRecord) (saved : List TorchTrace) :
    List TorchTrace × Option Unit :=
  match d.events with
  | none => (saved ++ [d.record], none)
  | some (a, b) =>
      match elapsedTime a b with
      | some ms => (saved ++ [{ d.record with duration := ms / 1000 }], none)
      | none => (saved, none)

/-- Truthiness of the value save returns (None is falsy). -/
def pyTruthy : Option Unit → Bool
  | none => false
  | some _ => true

/-- Embedding of the drain comprehension in TorchProbe.post_step_hook:
evaluate save on every pending record in order, keeping those whose return
value is truthy as the new pending list. -/
def drainPending (saved : List TorchTrace) :
    List DelayedRecord → List TorchTrace × List DelayedRecord
  | [] => (saved, [])
  | d :: ds =>
      let (saved2, ret) := saveDelayed d saved
      let (saved3, kept) := drainPending saved2 ds
      (saved3, if pyTruthy ret then d :: kept else kept)

/-- Embedding of VariableTracer.trace_variables: with no watched variables it
returns immediately; otherwise it appends the rows read off the live call
stack (an ambient input) to the variables table. -/
def trace_variables (s : ProbeState) (env : HookEnv) : ProbeState :=
  if s.variabls.isEmpty then s
  else { s with varRows := s.varRows ++ env.stackRows }

/-- Embedding of BaseTracer.pre_forward_hook (profiling/types.py): log first,
then advance the deduplicated offset counter. -/
def pre_forward_hook (s : ProbeState) (mid : Nat) (env : HookEnv) : ProbeState :=
  let s := log_module_stage s .preForward mid false env
  { s with core := process_hook s.core mid .preForward }

/-- Embedding of BaseTracer.post_forward_hook (profiling/types.py). -/
def post_forward_hook (s : ProbeState) (mid : Nat) (env : HookEnv) : ProbeState :=
  let s := log_module_stage s .postForward mid false env
  { s with core := process_hook s.core mid .postForward }

/-- Embedding of BaseTracer.pre_backward_hook (profiling/types.py). -/
def pre_backward_hook (s : ProbeState) (mid : Nat) (env : HookEnv) : ProbeState :=
  let s := log_module_stage s .preBackward mid false env
  { s with core := process_hook s.core mid .preBackward }

/-- Embedding of BaseTracer.post_backward_hook (profiling/types.py). -/
def post_backward_hook (s : ProbeState) (mid : Nat) (env : HookEnv) : ProbeState :=
  let s := log_module_stage s .postBackward mid false env
  { s with core := process_hook s.core mid .postBackward }

/-- Embedding of BaseTracer.pre_step_hook (profiling/types.py): note that
this variant passes force=False. -/
def pre_step_hook (s : ProbeState) (mid : Nat) (env : HookEnv) : ProbeState :=
  let s := log_module_stage s .preStep mid false env
  { s with core := process_hook s.core mid .preStep }

/-- Embedding of BaseTracer.post_step_hook (profiling/types.py): log with
force=False, advance the counter, reset the global MODULE_CALL_OFFSET to
zero (this variant declares the global), and call next_step(). -/
def base_post_step_hook (s : ProbeState) (mid : Nat) (env : HookEnv) : ProbeState :=
  let s := log_module_stage s .postStep mid false env
  let s := { s with core := process_hook s.core mid .postStep }
  let s := { s with core := { s.core with moduleCallOffset := 0 } }
  { s with optimIter := s.optimIter + 1 }

/-- The state of TorchProbe.post_step_hook just before the pending drain:
the super() call, then discovery finalisation on the first step or step
increment and round-robin advance on later steps. -/
def post_step_phase (s : ProbeState) (mid : Nat) (env : HookEnv) : ProbeState :=
  let s := base_post_step_hook s mid env
  if !s.finalized then
    finalize_discovery s
  else
    next_mod { s with currStep := s.currStep + 1 }

/-- Embedding of TorchProbe.post_step_hook: the phase above, the device
synchronisation (no modelled effect), the pending drain, the user-variable
trace and the step-start reset. -/
def post_step_hook (s : ProbeState) (mid : Nat) (env : HookEnv) : ProbeState :=
  let s := post_step_phase s mid env
  let (saved, kept) := drainPending s.saved s.pending
  let s := { s with saved := saved, pending := kept }
  let s := trace_variables s env
  { s with stepStart := 0 }

/-- Dispatch a hook invocation by stage, as the installed hooks do. -/
def hook (g : Stage) (s : ProbeState) (mid : Nat) (env : HookEnv) : ProbeState :=
  match g with
  | .preForward => pre_forward_hook s mid env
  | .postForward => post_forward_hook s mid env
  | .preBackward => pre_backward_hook s mid env
  | .postBackward => post_backward_hook s mid env
  | .preStep => pre_step_hook s mid env
  | .postStep => post_step_hook s mid env

end Probe

/-- Value of a digit string as a natural number. -/
def digitsVal (l : List Char) : Nat :=
  l.foldl (fun a c => 10 * a + (c.toNat - 48)) 0

/-- The ASCII whitespace the builtin float() strips from both ends of its
argument: space, tab, newline, carriage return, vertical tab and form
feed. -/
def pyIsSpace (c : Char) : Bool :=
  c == ' ' || c == '\t' || c == '\n' || c == '\r' || c == '\x0b' || c == '\x0c'

/-- Reads a run of decimal digits in which single underscores may stand
between two digits (the grammar of digit groups the builtin float()
accepts), returning the digits with the underscores removed and the unread
rest.  A leading, trailing, doubled or otherwise misplaced underscore
poisons the whole parse, which matches float() because an unconsumed
underscore can never be part of what follows a group either. -/
def digitsGrpAux : List Char → List Char → Option (List Char × List Char)
  | acc, [] => some (acc.reverse, [])
  | _, '_' :: [] => none
  | acc, '_' :: d :: rest =>
      if acc ≠ [] ∧ d.isDigit then digitsGrpAux (d :: acc) rest else none
  | acc, c :: rest =>
      if c.isDigit then digitsGrpAux (c :: acc) rest
      else some (acc.reverse, c :: rest)

/-- A possibly empty digit group with embedded underscores; callers check
emptiness where the grammar requires digits. -/
def digitsGrp (l : List Char) : Option (List Char × List Char) :=
  digitsGrpAux [] l

/-- What the builtin float() can return: a finite value (modelled as an
exact rational), a signed infinity, or nan. -/
inductive PyFloat where
  | val (q : Rat)
  | inf (neg : Bool)
  | nan
deriving DecidableEq, Repr

/-- Models the Python builtin float() on ASCII text: surrounding whitespace
is stripped; after an optional sign the words inf, infinity and nan (case
insensitive) give the non-finite values, and otherwise the literal is
integer digits, an optional point with optional fraction digits (at least
one digit between them), and an optional exponent part e with an optional
sign and mandatory digits, with single underscores permitted between
digits.  Returns none where float() raises ValueError.  The finite value is
the exact rational of the literal; rounding to an IEEE double, and the
normalisation of non-ASCII digits and whitespace, are outside the model. -/
def pyFloat (s : String) : Option PyFloat :=
  let cs := (((s.data.dropWhile pyIsSpace).reverse).dropWhile pyIsSpace).reverse
  let (neg, cs) : Bool × List Char :=
    match cs with
    | '+' :: rest => (false, rest)
    | '-' :: rest => (true, rest)
    | _ => (false, cs)
  let low := cs.map Char.toLower
  if low == ['i', 'n', 'f'] || low == ['i', 'n', 'f', 'i', 'n', 'i', 't', 'y'] then
    some (.inf neg)
  else if low == ['n', 'a', 'n'] then
    some .nan
  else
    match digitsGrp cs with
    | none => none
    | some (intD, rest1) =>
        let fracStep : Option (List Char × List Char) :=
          match rest1 with
          | '.' :: rest => digitsGrp rest
          | _ => some ([], rest1)
        match fracStep with
        | none => none
        | some (fracD, rest2) =>
            if intD.isEmpty && fracD.isEmpty then none
            else
              let mant : Rat :=
                (digitsVal intD : Rat) +
                  (digitsVal fracD : Rat) / ((10 : Rat) ^ fracD.length)
              match rest2 with
              | [] => some (.val (if neg then -mant else mant))
              | c :: rest3 =>
                  if c == 'e' || c == 'E' then
                    let (eneg, rest4) : Bool × List Char :=
                      match rest3 with
                      | '+' :: r => (false, r)
                      | '-' :: r => (true, r)
                      | _ => (false, rest3)
                    match digitsGrp rest4 with
                    | some (expD, []) =>
                        if expD.isEmpty then none
                        else
                          let v : Rat :=
                            if eneg then mant / ((10 : Rat) ^ digitsVal expD)
                            else mant * ((10 : Rat) ^ digitsVal expD)
                          some (.val (if neg then -v else v))
                    | _ => none
                  else none

/-- The groups a list of characters splits into at a separator character,
as str.split with a one-character separator (the empty string yields the
one-element list holding the empty group). -/
def splitOnChar (c : Char) : List Char → List (List Char)
  | [] => [[]]
  | x :: xs =>
      let r := splitOnChar c xs
      if x = c then [] :: r
      else
        match r with
        | [] => [[x]]
        | y :: ys => (x :: y) :: ys

/-- Embedding of expr.split with the colon separator, as a list of
strings. -/
def pySplitColon (s : String) : List String :=
  (splitOnChar ':' s.data).map (fun l => ⟨l⟩)

/-- String equality as the Python comparison of the two values, computed on
the character data. -/
def strEqc (a b : String) : Bool :=
  a.data == b.data

namespace Probe

/-- Embedding of Sampler.set_sampling_mode: the fast path for the bare word
ordered; otherwise split on the colon — a split that does not yield exactly
two parts, or a rate that float() cannot parse, raises ValueError, which the
except clause turns into a full revert to ordered with rate one; a split
that parses applies its two components independently, replacing an
unrecognised mode by ordered and an out-of-range rate by one.  A parsed
infinity or nan fails the chained comparison 0 < x <= 1, so it also leaves
the rate at one while the mode component is still applied. -/
def set_sampling_mode (s : ProbeState) (expr : String) : ProbeState :=
  if strEqc expr "ordered" then
    { s with mode := "ordered", rate := 1 }
  else
    match pySplitColon expr with
    | [m, r] =>
        match pyFloat r with
        | some v =>
            { s with
              mode := if strEqc m "ordered" || strEqc m "random" then m else "ordered"
              rate :=
                match v with
                | .val q => if 0 < q ∧ q ≤ 1 then q else 1
                | _ => 1 }
        | none => { s with mode := "ordered", rate := 1 }
    | _ => { s with mode := "ordered", rate := 1 }

/-- The state of a freshly constructed TorchProbe with the default arguments
(mode ordered, rate one, no watched variables), alongside fresh module
globals; has_cuda is an ambient fact of the host, false here.  The Python
step_start starts as None and is first written before it is ever read on the
sampled paths; it is modelled as zero. -/
def probeInit : ProbeState :=
  { core := TracerCore.init
    optimIter := 0
    hasCuda := false
    sync := false
    events := []
    stepStart := 0
    mode := "ordered"
    rate := 1
    modNames := []
    modQueue := []
    currIdx := 0
    currMod := none
    finalized := false
    sampledStep := true
    variabls := []
    currStep := 0
    pending := []
    saved := []
    varRows := []
    rng := [] }

end Probe

/-! ## MemTracer (src/python/probing/torch/tracer/mem_tracer.py)

The second tracer stack in the sources: BaseTracer from
src/python/probing/torch/tracer/types.py (whose step hooks pass force=True
and whose post_step_hook assigns MODULE_CALL_OFFSET without a global
declaration, binding a function-local name) mixed with ModuleTimer,
SamplingStrategy and PythonTracer. -/

/-- Embedding of the TorchTrace rows of mem_tracer.py (named torch_trace in
the registry); the time field can hold the None that begin_timing returns
when timing is disabled, hence the option. -/
structure MemTrace where
  step : Nat
  offset : Nat
  module : String
  stage : Stage
  allocated : Rat
  maxAllocated : Rat
  cached : Rat
  maxCached : Rat
  time : Option Rat
  duration : Rat
deriving DecidableEq, Repr

/-- State of a MemTracer instance together with the module-level globals of
torch/tracer/types.py. -/
structure MemState where
  core : TracerCore
  optimIter : Nat
  currentStep : Nat
  hasCuda : Bool
  logtime : Bool
  sync : Bool
  startTimes : List ((Nat × Stage) × Rat)
  cudaEvents : List ((Nat × Stage) × DevEvent)
  moduleNames : List (Nat × String)
  moduleIds : List Nat
  currModuleIdx : Nat
  trackingModule : Option Nat
  discoveryDone : Bool
  strategy : String
  sampleRate : Rat
  saved : List MemTrace
  rng : List Rat
deriving DecidableEq, Repr

namespace MemT

/-- Consume the next random.random() draw. -/
def draw (s : MemState) : Rat × MemState :=
  match s.rng with
  | [] => (0, s)
  | r :: rest => (r, { s with rng := rest })

/-- Embedding of SamplingStrategy.register_new_module: during discovery,
record the module name if the id is new. -/
def register_new_module (s : MemState) (mid : Nat) (name : String) : MemState :=
  if s.discoveryDone then s
  else if s.moduleNames.any (fun p => p.1 == mid) then s
  else { s with moduleNames := s.moduleNames ++ [(mid, name)] }

/-- Embedding of SamplingStrategy.complete_discovery: sort the discovered
modules by name length and point the tracker at the first (the index is left
at its current value). -/
def complete_discovery (s : MemState) : MemState :=
  let mods := sortByNameLen s.moduleNames
  let ids := mods.map Prod.fst
  let s := { s with discoveryDone := true, moduleIds := ids }
  match ids with
  | [] => s
  | m :: _ => { s with trackingModule := some m }

/-- Embedding of SamplingStrategy.should_log_module. -/
def should_log_module (s : MemState) (mid : Nat) (name : String) :
    Bool × MemState :=
  if !s.discoveryDone then
    (false, register_new_module s mid name)
  else if s.core.moduleCallOffset == 0 then
    (true, s)
  else if s.strategy == "ordered" then
    (s.trackingModule == some mid, s)
  else
    let (r, s) := draw s
    (decide (r < s.sampleRate), s)

/-- Embedding of SamplingStrategy.select_next_module. -/
def select_next_module (s : MemState) : MemState :=
  if !s.moduleIds.isEmpty then
    let idx := (s.currModuleIdx + 1) % s.moduleIds.length
    { s with currModuleIdx := idx, trackingModule := s.moduleIds.get? idx }
  else
    s

/-- Embedding of ModuleTimer.begin_timing: none when timing is disabled;
otherwise record the CPU timestamp and, with a device, a CUDA event, both
keyed by the raw (module, stage) pair. -/
def begin_timing (s : MemState) (mid : Nat) (stage : Stage) (env : HookEnv) :
    Option Rat × MemState :=
  if !s.logtime then (none, s)
  else
    let key : Nat × Stage := (mid, stage)
    let s := { s with startTimes := dictSet s.startTimes key env.now }
    let s :=
      if s.hasCuda then { s with cudaEvents := dictSet s.cudaEvents key env.ev }
      else s
    (some env.now, s)

/-- Embedding of the timing-enabled body of ModuleTimer.end_timing (the
timing-disabled early return is unreachable from its only call site, which
is guarded by logtime): prefer the CUDA event pair, fall back to the CPU
timestamp, else zero duration.  A raising device query is not modelled; the
event resolves to its recorded timestamp. -/
def end_timing (s : MemState) (mid : Nat) (stage : Stage) (env : HookEnv) :
    Rat × Rat × MemState :=
  let key : Nat × Stage := (mid, stage)
  match dictGet s.cudaEvents key with
  | some e =>
      (env.now, (env.ev.time - e.time) / 1000,
        { s with
          cudaEvents := s.cudaEvents.filter (fun p => p.1 != key)
          startTimes := s.startTimes.filter (fun p => p.1 != key) })
  | none =>
      match dictGet s.startTimes key with
      | some t =>
          (env.now, env.now - t,
            { s with startTimes := s.startTimes.filter (fun p => p.1 != key) })
      | none => (env.now, 0, s)

/-- Embedding of MemTracer.log_module_stage: unless forced, ask the sampler
(which registers the module during discovery); on emission, time the stage
when enabled and save a torch_trace row immediately. -/
def log_module_stage (s : MemState) (stage : Stage) (mid : Nat)
    (force : Bool) (env : HookEnv) : MemState :=
  let (skip, s) :=
    if force then
      (false, s)
    else
      let (b, s) := should_log_module s mid env.modName
      (!b, s)
  if skip then s
  else
    let (tval, dur, s) :=
      if s.logtime then
        if stage.isPre then
          let (t, s) := begin_timing s mid stage env
          (t, (0 : Rat), s)
        else
          let (t, d, s) := end_timing s mid stage env
          (some t, d, s)
      else
        ((some 0 : Option Rat), (0 : Rat), s)
    let row : MemTrace :=
      { step := s.currentStep
        offset := s.core.moduleCallOffset
        module := (dictGet s.moduleNames mid).getD "None"
        stage := stage
        allocated := env.mem.allocated
        maxAllocated := env.mem.maxAllocated
        cached := env.mem.cached
        maxCached := env.mem.maxCached
        time := tval
        duration := dur }
    { s with saved := s.saved ++ [row] }

/-- Embedding of BaseTracer.pre_forward_hook (torch/tracer/types.py): this
variant advances the counter first, then logs. -/
def pre_forward_hook (s : MemState) (mid : Nat) (env : HookEnv) : MemState :=
  let s := { s with core := process_hook s.core mid .preForward }
  log_module_stage s .preForward mid false env

/-- Embedding of BaseTracer.post_forward_hook (torch/tracer/types.py). -/
def post_forward_hook (s : MemState) (mid : Nat) (env : HookEnv) : MemState :=
  let s := { s with core := process_hook s.core mid .postForward }
  log_module_stage s .postForward mid false env

/-- Embedding of BaseTracer.pre_backward_hook (torch/tracer/types.py). -/
def pre_backward_hook (s : MemState) (mid : Nat) (env : HookEnv) : MemState :=
  let s := { s with core := process_hook s.core mid .preBackward }
  log_module_stage s .preBackward mid false env

/-- Embedding of BaseTracer.post_backward_hook (torch/tracer/types.py). -/
def post_backward_hook (s : MemState) (mid : Nat) (env : HookEnv) : MemState :=
  let s := { s with core := process_hook s.core mid .postBackward }
  log_module_stage s .postBackward mid false env

/-- Embedding of BaseTracer.pre_step_hook (torch/tracer/types.py): this
variant logs the step stage with force=True. -/
def pre_step_hook (s : MemState) (mid : Nat) (env : HookEnv) : MemState :=
  let s := { s with core := process_hook s.core mid .preStep }
  log_module_stage s .preStep mid true env

/-- Embedding of BaseTracer.post_step_hook (torch/tracer/types.py): counter,
forced log, then the statement MODULE_CALL_OFFSET = 0 — which, lacking a
global declaration, binds a function-local name and leaves the module-level
counter untouched — and next_step(). -/
def base_post_step_hook (s : MemState) (mid : Nat) (env : HookEnv) : MemState :=
  let s := { s with core := process_hook s.core mid .postStep }
  let s := log_module_stage s .postStep mid true env
  -- MODULE_CALL_OFFSET = 0 here is a dead local binding: no state change
  { s with optimIter := s.optimIter + 1 }

/-- Embedding of MemTracer.post_step_hook: finish discovery on the first
step or advance the step counter and the round-robin choice, then defer to
the base hook. -/
def post_step_hook (s : MemState) (mid : Nat) (env : HookEnv) : MemState :=
  let s :=
    if !s.discoveryDone then
      complete_discovery s
    else
      select_next_module { s with currentStep := s.currentStep + 1 }
  base_post_step_hook s mid env

/-- Dispatch a hook invocation by stage, as the installed hooks do. -/
def hook (g : Stage) (s : MemState) (mid : Nat) (env : HookEnv) : MemState :=
  match g with
  | .preForward => pre_forward_hook s mid env
  | .postForward => post_forward_hook s mid env
  | .preBackward => pre_backward_hook s mid env
  | .postBackward => post_backward_hook s mid env
  | .preStep => pre_step_hook s mid env
  | .postStep => post_step_hook s mid env

/-- The state of a freshly constructed MemTracer with the default arguments
(strategy ordered, sample rate five percent, timing disabled), alongside
fresh module globals; has_cuda is false for the host modelled here. -/
def memInit : MemState :=
  { core := TracerCore.init
    optimIter := 0
    currentStep := 0
    hasCuda := false
    logtime := false
    sync := false
    startTimes := []
    cudaEvents := []
    moduleNames := []
    moduleIds := []
    currModuleIdx := 0
    trackingModule := none
    discoveryDone := false
    strategy := "ordered"
    sampleRate := 1 / 20
    saved := []
    rng := [] }

end MemT

/-! ## try_catch (src/python/probing/torch/tracer/module_utils.py)

The decorator closes over a counter _maxtry initialised from its argument
(default 3) and shared by every call through the wrapped function.  The bare
except swallows every exception; the wrapper then returns None (it has no
return statement on that path).  The traceback is printed only while the
decremented counter is still positive. -/

/-- One call through a try_catch wrapper: the wrapped function either
returns a value or raises. -/
inductive CallOutcome where
  | ok (v : Nat)
  | raises
deriving DecidableEq, Repr

/-- One call through the wrapper: given the current _maxtry counter, return
the new counter, the value the caller sees (none models the implicit None on
the swallowed-exception path) and whether the traceback was printed. -/
def wrapperCall (mt : Int) (c : CallOutcome) : Int × Option Nat × Bool :=
  match c with
  | .ok v => (mt, some v, false)
  | .raises =>
      let mt2 := mt - 1
      (mt2, none, decide (mt2 > 0))

/-- A sequence of calls through one try_catch wrapper, threading the shared
_maxtry counter; yields the final counter and, per call, the value the
caller saw and whether a traceback was printed. -/
def runWrapper (mt : Int) : List CallOutcome → Int × List (Option Nat × Bool)
  | [] => (mt, [])
  | c :: cs =>
      let (mt2, v, logged) := wrapperCall mt c
      let (mtEnd, rest) := runWrapper mt2 cs
      (mtEnd, (v, logged) :: rest)

/-- Number of raising calls in a prefix of the call sequence. -/
def failCount (l : List CallOutcome) : Nat :=
  (l.filter (fun c => c == CallOutcome.raises)).length

/-! ## Process/script activator (src/python/probing_hook.py)

The module reads PROBING once, rewrites init: directives into a script path
plus a residual value, and — unless the script basename fully matches the
literal regex torchrun — runs init_probing, which deletes PROBING and then
dispatches on the value.  String lowering and comparisons are modelled over
the character data; the Python re.search of a user pattern is an oracle
argument returning none where re raises (invalid pattern) and otherwise
whether the pattern matches somewhere in the subject. -/

/-- Lowercasing as str.lower, on the ASCII inputs the activator meets. -/
def pyLower (s : String) : String :=
  ⟨s.data.map Char.toLower⟩

/-- Whether the first character list leads the second, character by
character. -/
def charsLead : List Char → List Char → Bool
  | [], _ => true
  | _ :: _, [] => false
  | a :: as, b :: bs => a == b && charsLead as bs

/-- Bool test that p is a leading piece of s, as str.startswith. -/
def strStarts (s p : String) : Bool :=
  charsLead p.data s.data

/-- Everything after the first occurrence of the character, as the second
component of str.split(c, 1); none when the character does not occur. -/
def afterFirst (c : Char) : List Char → Option (List Char)
  | [] => none
  | x :: xs => if x = c then some xs else afterFirst c xs

/-- The observable activation outcome: the value of PROBING afterwards,
whether the probing library was imported, and whether an init: script was
executed. -/
structure ProcState where
  env : Option String
  imported : Bool
  inited : Bool
deriving DecidableEq, Repr

/-- Embedding of the module-level init: rewrite: a value of the form
init:PATH or init:PATH+VALUE yields the script path and the residual value
(default the string zero); other values pass through. -/
def parseInitDirective (pv : String) : Option String × String :=
  if strStarts pv "init:" then
    match afterFirst '+' pv.data with
    | some rest => (some ⟨(pv.data.takeWhile (· ≠ '+')).drop 5⟩, ⟨rest⟩)
    | none => (some ⟨pv.data.drop 5⟩, "0")
  else
    (none, pv)

/-- Embedding of init_probing: PROBING is deleted first, then the value
dispatches.  followed imports without restoring the variable; nested imports
and restores it; a regex: value extracts the pattern after the first colon
and queries re.search against the script basename — a match imports, any
outcome of a valid pattern restores the variable, and a raising pattern
leaves it deleted; a bare script name imports on exact equality and always
restores; the value zero leaves the variable deleted.  The import itself is
modelled as succeeding, and the init script runs after a successful attach
exactly when one was configured. -/
def init_probing (pv : String) (scriptInit : Option String) (script : String)
    (research : String → String → Option Bool) : ProcState :=
  if strEqc (pyLower pv) "1" || strEqc (pyLower pv) "followed" then
    ⟨none, true, scriptInit.isSome⟩
  else if strEqc (pyLower pv) "2" || strEqc (pyLower pv) "nested" then
    ⟨some pv, true, scriptInit.isSome⟩
  else if strStarts (pyLower pv) "regex:" then
    let pat : String := ⟨(afterFirst ':' pv.data).getD []⟩
    match research pat script with
    | some true => ⟨some pv, true, scriptInit.isSome⟩
    | some false => ⟨some pv, false, false⟩
    | none => ⟨none, false, false⟩
  else if !strEqc pv "0" then
    if strEqc pv script then ⟨some pv, true, scriptInit.isSome⟩
    else ⟨some pv, false, false⟩
  else
    ⟨none, false, false⟩

/-- Embedding of the module toplevel of probing_hook.py: read PROBING (the
default is the string zero), rewrite an init: directive, and run
init_probing unless the script basename fully matches the literal pattern
torchrun, in which case nothing runs and the environment is untouched. -/
def probingHookMain (env0 : Option String) (script : String)
    (research : String → String → Option Bool) : ProcState :=
  let parsed := parseInitDirective (env0.getD "0")
  if strEqc script "torchrun" then
    ⟨env0, false, false⟩
  else
    init_probing parsed.2 parsed.1 script research

/-! ## REPL console (src/python/probing/repl.py and
src/src/repl/debug_console.py, DebugConsole.runcode)

The two copies of runcode agree: the fragment executes under redirected
stdout and stderr; a SystemExit is re-raised; any other exception returns
the captured stderr plus stdout, followed by the console buffer into which
showtraceback wrote the traceback; on success only the captured stdout is
returned, as None when empty.  What the fragment writes and whether it
raises are ambient inputs. -/

/-- How an executed fragment behaves. -/
inductive ExecOutcome where
  | ok
  | exc
  | sysExit
deriving DecidableEq, Repr

/-- Ambient description of one fragment execution: what it wrote to stdout
and stderr, how it finished, and the traceback text showtraceback renders
when it raised. -/
structure ExecEffect where
  out : String
  err : String
  outcome : ExecOutcome
  tb : String
deriving DecidableEq, Repr

/-- The console state: the buffer self.output that self.write appends to. -/
structure Console where
  output : String
deriving DecidableEq, Repr

/-- Embedding of DebugConsole.runcode: the returned reply (inl marks the
re-raised SystemExit) together with the console state afterwards. -/
def runcode (c : Console) (eff : ExecEffect) :
    (Sum Unit (Option String)) × Console :=
  match eff.outcome with
  | .sysExit => (.inl (), c)
  | .exc =>
      let ret := eff.err ++ eff.out
      -- showtraceback writes through self.write into the buffer,
      -- and resetoutput hands the buffer over and clears it
      let c := { c with output := c.output ++ eff.tb }
      (.inr (some (ret ++ c.output)), { output := "" })
  | .ok =>
      let ret := eff.out
      if ret.data.isEmpty then (.inr none, c) else (.inr (some ret), c)

/-- Substring containment, the sense in which captured text is included in a
reply. -/
def strIncludes (hay needle : String) : Prop :=
  ∃ a b : String, hay = a ++ needle ++ b

/-- The text of a reply: the returned string, or empty for a None reply or
a re-raised SystemExit. -/
def replyText : Sum Unit (Option String) → String
  | .inl () => ""
  | .inr none => ""
  | .inr (some t) => t

/-- A fixed ambient hook input used by the concrete runs: wall clock zero,
zeroed memory counters, one ready device event, module name m, no stack
rows. -/
def env0 : HookEnv :=
  ⟨0, ⟨0, 0, 0, 0⟩, ⟨0, true⟩, "m", []⟩

/-- The claim's notion of a well-formed sampling expression: it splits on
the colon into a recognised mode and a rate that parses to a finite float
in the half-open unit interval. -/
def samplingWellFormed (e : String) : Prop :=
  ∃ m r q, pySplitColon e = [m, r] ∧ (m = "ordered" ∨ m = "random") ∧
    pyFloat r = some (.val q) ∧ 0 < q ∧ q ≤ 1

/-- The finalisation a drained DelayedRecord undergoes in save: no event
pair leaves the row as queued (its duration untouched); a pair whose
elapsed-time query succeeds fills the duration in seconds; a raising query
discards the row. -/
def finalizeDelayed (d : DelayedRecord) : Option TorchTrace :=
  match d.events with
  | none => some d.record
  | some (a, b) =>
      (elapsedTime a b).map (fun ms => { d.record with duration := ms / 1000 })

/-! ## Theorems -/

/-- C1: initialising a table through the table decorator when a table of
that name already exists fails with AlreadyExists when the existing field
list differs from the requested one, and returns the existing handle with
the registry unchanged (no new table created) when the field lists are
identical. -/
theorem init_table_existing (r : Registry) (name : String)
    (fields : List String) (t : PyTable) (hget : r.getTable name = some t) :
    (t.fields ≠ fields → init_table r name fields = .error .alreadyExists) ∧
    (t.fields = fields → init_table r name fields = .ok (r, t)) := by
  constructor
  · intro hne
    simp [init_table, ExternalTable.get, ExternalTable.create, hget, hne]
  · intro heq
    simp [init_table, ExternalTable.get, hget, heq]

/-- Witness for C1 at a concrete registry holding the table t with fields
a, b: re-initialising with the identical field list returns the existing
handle on the unchanged registry, and initialising with a different field
list fails with AlreadyExists. -/
theorem init_table_existing_witness :
    init_table ⟨1, [⟨0, "t", ["a", "b"]⟩]⟩ "t" ["a", "b"] =
      .ok (⟨1, [⟨0, "t", ["a", "b"]⟩]⟩, ⟨0, "t", ["a", "b"]⟩) ∧
    init_table ⟨1, [⟨0, "t", ["a", "b"]⟩]⟩ "t" ["a"] = .error .alreadyExists := by
  refine ⟨?_, ?_⟩
  · exact (init_table_existing ⟨1, [⟨0, "t", ["a", "b"]⟩]⟩ "t" ["a", "b"]
      ⟨0, "t", ["a", "b"]⟩ (by decide)).2 rfl
  · exact (init_table_existing ⟨1, [⟨0, "t", ["a", "b"]⟩]⟩ "t" ["a"]
      ⟨0, "t", ["a", "b"]⟩ (by decide)).1 (by decide)

/-- C4: on any two consecutive hook invocations the shared offset counter
advances on the second exactly when its (module identity, stage) pair
differs from the pair of the first; with the same pair it is unchanged.
The first invocation may follow any earlier history, represented by the
arbitrary starting state. -/
theorem process_hook_dedup (c : TracerCore) (m1 m2 : Nat) (g1 g2 : Stage) :
    (process_hook (process_hook c m1 g1) m2 g2).moduleCallOffset =
      (process_hook c m1 g1).moduleCallOffset +
        (if m2 = m1 ∧ g2 = g1 then 0 else 1) := by
  have key : ∀ (e : TracerCore) (m : Nat) (g : Stage),
      (process_hook e m g).moduleCallOffset =
        e.moduleCallOffset +
          (if e.currentModule = some m ∧ e.currentStage = some g then 0 else 1) := by
    intro e m g
    unfold process_hook
    by_cases h : e.currentModule ≠ some m ∨ e.currentStage ≠ some g
    · rw [if_pos h, if_neg]
      intro hc
      rcases h with h | h
      · exact h hc.1
      · exact h hc.2
    · push_neg at h
      rw [if_neg (by push_neg; exact h), if_pos ⟨h.1, h.2⟩]
      rfl
  have hset : (process_hook c m1 g1).currentModule = some m1 ∧
      (process_hook c m1 g1).currentStage = some g1 := by
    unfold process_hook
    split
    · exact ⟨rfl, rfl⟩
    · rename_i h
      push_neg at h
      exact ⟨h.1, h.2⟩
  obtain ⟨h1, h2⟩ := hset
  rw [key (process_hook c m1 g1) m2 g2, h1, h2]
  by_cases hm : m2 = m1 <;> by_cases hg : g2 = g1
  · subst hm; subst hg
    rw [if_pos ⟨rfl, rfl⟩, if_pos ⟨rfl, rfl⟩]
  · subst hm
    rw [if_neg (fun hh => hg (Option.some.inj hh.2).symm),
      if_neg (fun hh => hg hh.2)]
  · subst hg
    rw [if_neg (fun hh => hm (Option.some.inj hh.1).symm),
      if_neg (fun hh => hm hh.1)]
  · rw [if_neg (fun hh => hm (Option.some.inj hh.1).symm),
      if_neg (fun hh => hm hh.1)]

/-- C7: with PROBING holding a regex: value whose pattern is a valid
regular expression (the search oracle answers), init_probing imports the
probing library exactly when the pattern matches the script basename, and
in both the matching and the non-matching case it writes the original
value back into PROBING for child processes. -/
theorem init_probing_regex (pat script : String) (si : Option String)
    (research : String → String → Option Bool) (b : Bool)
    (h : research pat script = some b) :
    init_probing ("regex:" ++ pat) si script research =
      ⟨some ("regex:" ++ pat), b, b && si.isSome⟩ := by
  obtain ⟨l⟩ := pat
  have hred : init_probing ("regex:" ++ (⟨l⟩ : String)) si script research =
      (match research ⟨l⟩ script with
       | some true => ⟨some ("regex:" ++ (⟨l⟩ : String)), true, si.isSome⟩
       | some false => ⟨some ("regex:" ++ (⟨l⟩ : String)), false, false⟩
       | none => ⟨none, false, false⟩) := rfl
  rw [hred, h]
  cases b <;> simp

/-- Witness for C7: a pattern the oracle reports as matching the script
basename train_step.py leads to an import with PROBING preserved. -/
theorem init_probing_regex_witness :
    init_probing ("regex:" ++ "train") none "train_step.py"
        (fun _ _ => some true) =
      ⟨some ("regex:" ++ "train"), true, false⟩ :=
  init_probing_regex "train" "train_step.py" none (fun _ _ => some true)
    true rfl

/-- Characterisation of the modelled string equality. -/
theorem strEqc_iff (a b : String) : strEqc a b = true ↔ a = b := by
  obtain ⟨la⟩ := a
  obtain ⟨lb⟩ := b
  simp only [strEqc, beq_iff_eq]
  constructor
  · exact fun h => congrArg String.mk h
  · intro h
    injection h

/-- Reduction of set_sampling_mode when the expression is not the bare word
ordered and splits into exactly two parts: the outcome is decided by the
float parse of the rate part. -/
theorem set_sampling_two (s : ProbeState) (expr m r : String)
    (h0 : ¬ strEqc expr "ordered" = true)
    (hsp : pySplitColon expr = [m, r]) :
    Probe.set_sampling_mode s expr =
      (match pyFloat r with
       | some v =>
           { s with
             mode := if strEqc m "ordered" || strEqc m "random" then m else "ordered"
             rate :=
               match v with
               | .val q => if 0 < q ∧ q ≤ 1 then q else 1
               | _ => 1 }
       | none => { s with mode := "ordered", rate := 1 }) := by
  unfold Probe.set_sampling_mode
  rw [if_neg h0, hsp]

/-- The finite value float parses out of the text 0.5. -/
theorem pyFloat_half : pyFloat "0.5" = some (.val (1 / 2)) := by
  have h : pyFloat "0.5" =
      some (.val ((digitsVal ['0'] : Rat) +
        (digitsVal ['5'] : Rat) / (10 : Rat) ^ (['5'].length))) := rfl
  rw [h, show digitsVal ['5'] = 5 from rfl, show digitsVal ['0'] = 0 from rfl,
    show (['5'] : List Char).length = 1 from rfl]
  norm_num

/-- The finite value float parses out of the text 1.5. -/
theorem pyFloat_three_halves : pyFloat "1.5" = some (.val (3 / 2)) := by
  have h : pyFloat "1.5" =
      some (.val ((digitsVal ['1'] : Rat) +
        (digitsVal ['5'] : Rat) / (10 : Rat) ^ (['5'].length))) := rfl
  rw [h, show digitsVal ['5'] = 5 from rfl, show digitsVal ['1'] = 1 from rfl,
    show (['5'] : List Char).length = 1 from rfl]
  norm_num

/-- The finite value float parses out of the exponent literal 1e-1. -/
theorem pyFloat_tenth : pyFloat "1e-1" = some (.val (1 / 10)) := by
  have h : pyFloat "1e-1" =
      some (.val (((digitsVal ['1'] : Rat) +
        (digitsVal ([] : List Char) : Rat) /
          (10 : Rat) ^ (([] : List Char).length)) /
        (10 : Rat) ^ digitsVal ['1'])) := rfl
  rw [h, show digitsVal ['1'] = 1 from rfl,
    show digitsVal ([] : List Char) = 0 from rfl,
    show ([] : List Char).length = 0 from rfl]
  norm_num

/-- C5 counterexample: the expression invalid:0.5 is not well formed (its
mode is recognised by neither name), yet the sampler does not revert to
ordered with rate one: the mode falls back to ordered but the parsed rate
one half is kept. -/
theorem set_sampling_mode_cex :
    ¬ samplingWellFormed "invalid:0.5" ∧
    (Probe.set_sampling_mode Probe.probeInit "invalid:0.5").mode = "ordered" ∧
    (Probe.set_sampling_mode Probe.probeInit "invalid:0.5").rate = 1 / 2 ∧
    ¬ (Probe.set_sampling_mode Probe.probeInit "invalid:0.5").rate = 1 := by
  have hq := pyFloat_half
  have hrate : (Probe.set_sampling_mode Probe.probeInit "invalid:0.5").rate =
      (match pyFloat "0.5" with
       | some v =>
           (match v with
            | PyFloat.val q => if 0 < q ∧ q ≤ 1 then q else 1
            | _ => 1)
       | none => 1) := rfl
  rw [hq] at hrate
  norm_num at hrate
  refine ⟨?_, rfl, hrate, ?_⟩
  · rintro ⟨m, r, q, hsplit, hm, -⟩
    rw [show pySplitColon "invalid:0.5" = ["invalid", "0.5"] from rfl] at hsplit
    injection hsplit with h1 h2
    rcases hm with h | h
    · exact absurd (h1.trans h) (by decide)
    · exact absurd (h1.trans h) (by decide)
  · rw [hrate]
    norm_num

/-- C5 amended: after any call the sampler state is valid (mode is ordered
or random and the rate lies in the half-open unit interval); a full revert
to ordered with rate one happens when the expression does not split into
exactly two parts or its rate does not parse as a float; when it does split
and parse, the two components fall back independently: an unrecognised mode
is replaced by ordered while a valid rate is kept, an out-of-range rate is
replaced by one while a recognised mode is kept, and a parsed infinity or
nan likewise only forces the rate to one. -/
theorem set_sampling_mode_spec (s : ProbeState) (expr : String) :
    (((Probe.set_sampling_mode s expr).mode = "ordered" ∨
        (Probe.set_sampling_mode s expr).mode = "random") ∧
      0 < (Probe.set_sampling_mode s expr).rate ∧
      (Probe.set_sampling_mode s expr).rate ≤ 1) ∧
    (∀ m r, ¬ strEqc expr "ordered" = true → pySplitColon expr = [m, r] →
      pyFloat r = none →
      Probe.set_sampling_mode s expr = { s with mode := "ordered", rate := 1 }) ∧
    (∀ m r q, ¬ strEqc expr "ordered" = true → pySplitColon expr = [m, r] →
      pyFloat r = some (.val q) →
      Probe.set_sampling_mode s expr =
        { s with
          mode := if m = "ordered" ∨ m = "random" then m else "ordered"
          rate := if 0 < q ∧ q ≤ 1 then q else 1 }) ∧
    (∀ m r v, ¬ strEqc expr "ordered" = true → pySplitColon expr = [m, r] →
      pyFloat r = some v → (∀ q, v ≠ PyFloat.val q) →
      Probe.set_sampling_mode s expr =
        { s with
          mode := if m = "ordered" ∨ m = "random" then m else "ordered"
          rate := 1 }) ∧
    (¬ strEqc expr "ordered" = true → (pySplitColon expr).length ≠ 2 →
      Probe.set_sampling_mode s expr = { s with mode := "ordered", rate := 1 }) := by
  have hbranch : ∀ m : String,
      (if strEqc m "ordered" || strEqc m "random" then m else "ordered") =
        (if m = "ordered" ∨ m = "random" then m else "ordered") := by
    intro m
    by_cases h : m = "ordered" ∨ m = "random"
    · rw [if_pos h, if_pos]
      rcases h with h | h <;>
        simp [strEqc_iff, h]
    · rw [if_neg h, if_neg]
      push_neg at h
      simp [strEqc_iff, h.1, h.2]
  have defaultCase : Probe.set_sampling_mode s expr = { s with mode := "ordered", rate := 1 } →
      ((Probe.set_sampling_mode s expr).mode = "ordered" ∨
        (Probe.set_sampling_mode s expr).mode = "random") ∧
      0 < (Probe.set_sampling_mode s expr).rate ∧
      (Probe.set_sampling_mode s expr).rate ≤ 1 := by
    intro h
    rw [h]
    norm_num
  have modeOk : ∀ m : String,
      ((if m = "ordered" ∨ m = "random" then m else "ordered") = "ordered" ∨
        (if m = "ordered" ∨ m = "random" then m else "ordered") = "random") := by
    intro m
    by_cases hm : m = "ordered" ∨ m = "random"
    · rcases hm with h | h <;> simp [h]
    · simp [hm]
  refine ⟨?_, ?_, ?_, ?_, ?_⟩
  · by_cases h0 : strEqc expr "ordered" = true
    · have h : Probe.set_sampling_mode s expr = { s with mode := "ordered", rate := 1 } := by
        unfold Probe.set_sampling_mode
        rw [if_pos h0]
      exact defaultCase h
    · rcases hsp : pySplitColon expr with - | ⟨m, - | ⟨r, - | ⟨x, xs⟩⟩⟩
      · exact defaultCase (by unfold Probe.set_sampling_mode; rw [if_neg h0, hsp])
      · exact defaultCase (by unfold Probe.set_sampling_mode; rw [if_neg h0, hsp])
      · rcases hq : pyFloat r with - | v
        · exact defaultCase (by rw [set_sampling_two s expr m r h0 hsp, hq])
        · cases v with
          | val q =>
            have h : Probe.set_sampling_mode s expr =
                { s with
                  mode := if m = "ordered" ∨ m = "random" then m else "ordered"
                  rate := if 0 < q ∧ q ≤ 1 then q else 1 } := by
              rw [set_sampling_two s expr m r h0 hsp, hq, hbranch m]
            rw [h]
            refine ⟨modeOk m, ?_⟩
            by_cases hr : 0 < q ∧ q ≤ 1
            · simp [hr]
            · simp only [if_neg hr]
              norm_num
          | inf b =>
            have h : Probe.set_sampling_mode s expr =
                { s with
                  mode := if m = "ordered" ∨ m = "random" then m else "ordered"
                  rate := 1 } := by
              rw [set_sampling_two s expr m r h0 hsp, hq, hbranch m]
            rw [h]
            exact ⟨modeOk m, by norm_num⟩
          | nan =>
            have h : Probe.set_sampling_mode s expr =
                { s with
                  mode := if m = "ordered" ∨ m = "random" then m else "ordered"
                  rate := 1 } := by
              rw [set_sampling_two s expr m r h0 hsp, hq, hbranch m]
            rw [h]
            exact ⟨modeOk m, by norm_num⟩
      · exact defaultCase (by unfold Probe.set_sampling_mode; rw [if_neg h0, hsp])
  · intro m r h0 hsp hq
    rw [set_sampling_two s expr m r h0 hsp, hq]
  · intro m r q h0 hsp hq
    rw [set_sampling_two s expr m r h0 hsp, hq, hbranch m]
  · intro m r v h0 hsp hq hnv
    cases v with
    | val q => exact absurd rfl (hnv q)
    | inf b => rw [set_sampling_two s expr m r h0 hsp, hq, hbranch m]
    | nan => rw [set_sampling_two s expr m r h0 hsp, hq, hbranch m]
  · intro h0 hlen
    rcases hsp : pySplitColon expr with - | ⟨m, - | ⟨r, - | ⟨x, xs⟩⟩⟩
    · unfold Probe.set_sampling_mode
      rw [if_neg h0, hsp]
    · unfold Probe.set_sampling_mode
      rw [if_neg h0, hsp]
    · exact absurd (show (pySplitColon expr).length = 2 by rw [hsp]; rfl) hlen
    · unfold Probe.set_sampling_mode
      rw [if_neg h0, hsp]

/-- Witness for C5 amended at two concrete inputs: the ill-formed
expression random:1.5 keeps its recognised mode and only the out-of-range
rate falls back to one, and the exponent literal in random:1e-1 parses the
way float() does, keeping both the mode and the rate one tenth. -/
theorem set_sampling_mode_spec_witness :
    Probe.set_sampling_mode Probe.probeInit "random:1.5" =
      { Probe.probeInit with mode := "random", rate := 1 } ∧
    Probe.set_sampling_mode Probe.probeInit "random:1e-1" =
      { Probe.probeInit with mode := "random", rate := 1 / 10 } := by
  constructor
  · have happ := (set_sampling_mode_spec Probe.probeInit "random:1.5").2.2.1
      "random" "1.5" (3 / 2) (by decide) rfl pyFloat_three_halves
    rw [happ, if_pos (Or.inr rfl),
      if_neg (by norm_num : ¬((0 : Rat) < 3 / 2 ∧ (3 : Rat) / 2 ≤ 1))]
  · have happ := (set_sampling_mode_spec Probe.probeInit "random:1e-1").2.2.1
      "random" "1e-1" (1 / 10) (by decide) rfl pyFloat_tenth
    rw [happ, if_pos (Or.inr rfl),
      if_pos (by norm_num : (0 : Rat) < 1 / 10 ∧ (1 : Rat) / 10 ≤ 1)]

/-- C6 counterexample: through a try_catch wrapper with the default maxtry
of three, three raising calls all return None, but only the first two print
a traceback — the third is already silent, against the claim that the first
three failing calls are logged. -/
theorem try_catch_cex :
    (runWrapper 3 [.raises, .raises, .raises]).2 =
      [(none, true), (none, true), (none, false)] ∧
    (runWrapper 3 [.raises, .raises, .raises]).2.map Prod.snd ≠
      [true, true, true] := by
  constructor
  · decide
  · decide

/-- C6 amended: the wrapper never propagates: a successful call returns the
value of the wrapped function and a raising call returns None; the
traceback is printed exactly on the raising calls whose failure ordinal is
at most maxtry minus one (so with the default of three, the first two
failures are logged and every later one is silently suppressed). -/
theorem try_catch_spec (mt : Int) (calls : List CallOutcome) (i : Nat) :
    (runWrapper mt calls).2.get? i =
      (calls.get? i).map (fun c =>
        match c with
        | .ok v => (some v, false)
        | .raises =>
            (none, decide ((failCount (calls.take (i + 1)) : Int) ≤ mt - 1))) := by
  induction calls generalizing mt i with
  | nil => simp [runWrapper]
  | cons c cs ih =>
    cases c with
    | ok v =>
      cases i with
      | zero => simp [runWrapper, wrapperCall]
      | succ j =>
        have hfc : failCount ((CallOutcome.ok v :: cs).take (j + 2)) =
            failCount (cs.take (j + 1)) := by
          simp [failCount, List.take]
        simp only [runWrapper, wrapperCall, List.get?, hfc]
        exact ih mt j
    | raises =>
      cases i with
      | zero =>
        have hfc : failCount ((CallOutcome.raises :: cs).take 1) = 1 := by
          simp [failCount, List.take]
        simp only [runWrapper, wrapperCall, List.get?]
        refine congrArg some ?_
        refine congrArg (Prod.mk none) ?_
        rw [decide_eq_decide, hfc]
        push_cast
        omega
      | succ j =>
        have hfc : failCount ((CallOutcome.raises :: cs).take (j + 2)) =
            failCount (cs.take (j + 1)) + 1 := by
          simp [failCount, List.take]
        simp only [runWrapper, wrapperCall, List.get?]
        rw [ih (mt - 1) j]
        congr 1
        funext c2
        cases c2
        · rfl
        · refine congrArg (Prod.mk none) ?_
          rw [decide_eq_decide, hfc]
          push_cast
          omega

/-- C8 counterexample: a fragment that writes to standard error and
finishes without raising gets a None reply; the text it wrote to standard
error is not included in the returned output. -/
theorem runcode_cex :
    runcode ⟨""⟩ ⟨"", "oops", .ok, ""⟩ = (.inr none, ⟨""⟩) ∧
    ¬ strIncludes (replyText (runcode ⟨""⟩ ⟨"", "oops", .ok, ""⟩).1) "oops" := by
  constructor
  · rfl
  · rintro ⟨a, b, hab⟩
    have hab2 : ("" : String) = a ++ "oops" ++ b := hab
    have hlen := congrArg String.length hab2
    rw [String.length_append, String.length_append,
      show ("oops" : String).length = 4 from rfl,
      show ("" : String).length = 0 from rfl] at hlen
    omega

/-- C8 amended: on success runcode returns only the captured standard
output (None when it is empty) and discards the captured standard error; on
an ordinary exception it returns the captured standard error, then the
captured standard output, then the console buffer holding the traceback, so
the reply includes the fragment's stderr, its stdout and the traceback; a
SystemExit is re-raised. -/
theorem runcode_spec (c : Console) (eff : ExecEffect) :
    (eff.outcome = .ok →
      runcode c eff =
        (.inr (if eff.out.data.isEmpty then none else some eff.out), c)) ∧
    (eff.outcome = .exc →
      runcode c eff =
        (.inr (some (eff.err ++ eff.out ++ (c.output ++ eff.tb))), ⟨""⟩) ∧
      strIncludes (replyText (runcode c eff).1) eff.err ∧
      strIncludes (replyText (runcode c eff).1) eff.out ∧
      strIncludes (replyText (runcode c eff).1) eff.tb) ∧
    (eff.outcome = .sysExit → runcode c eff = (.inl (), c)) := by
  obtain ⟨o, e, oc, tb⟩ := eff
  cases oc with
  | ok =>
    refine ⟨fun _ => ?_, ?_, ?_⟩
    · have hred : runcode c ⟨o, e, .ok, tb⟩ =
          if o.data.isEmpty then (.inr none, c) else (.inr (some o), c) := rfl
      rw [hred]
      by_cases he : o.data.isEmpty <;> simp [he]
    · intro h
      simp at h
    · intro h
      simp at h
  | exc =>
    have hrep : replyText (runcode c ⟨o, e, .exc, tb⟩).1 =
        e ++ o ++ (c.output ++ tb) := rfl
    refine ⟨?_, fun _ => ⟨rfl, ?_, ?_, ?_⟩, ?_⟩
    · intro h
      simp at h
    · refine ⟨"", o ++ (c.output ++ tb), ?_⟩
      rw [hrep, String.empty_append, String.append_assoc e o (c.output ++ tb)]
    · exact ⟨e, c.output ++ tb, hrep⟩
    · refine ⟨e ++ o ++ c.output, "", ?_⟩
      rw [hrep, String.append_empty, String.append_assoc (e ++ o) c.output tb]
    · intro h
      simp at h
  | sysExit =>
    refine ⟨?_, ?_, fun _ => rfl⟩
    · intro h
      simp at h
    · intro h
      simp at h
/-- Witness for C8 amended: a concrete raising fragment whose reply carries
its stderr, its stdout and the traceback in that order. -/
theorem runcode_spec_witness :
    runcode ⟨""⟩ ⟨"x", "err", .exc, "tb"⟩ =
      (.inr (some ("err" ++ "x" ++ ("" ++ "tb"))), ⟨""⟩) :=
  ((runcode_spec ⟨""⟩ ⟨"x", "err", .exc, "tb"⟩).2.1 rfl).1

/-- save appends exactly the finalised row (when there is one) and returns
None. -/
theorem saveDelayed_eq (d : DelayedRecord) (saved : List TorchTrace) :
    Probe.saveDelayed d saved = (saved ++ (finalizeDelayed d).toList, none) := by
  rcases hde : d.events with - | ⟨a, b⟩
  · simp [Probe.saveDelayed, finalizeDelayed, hde]
  · rcases hel : elapsedTime a b with - | ms <;>
      simp [Probe.saveDelayed, finalizeDelayed, hde, hel]

/-- The drain comprehension saves the finalised rows in order and keeps
nothing, because save always returns the falsy None. -/
theorem drainPending_eq (saved : List TorchTrace) (ds : List DelayedRecord) :
    Probe.drainPending saved ds = (saved ++ ds.filterMap finalizeDelayed, []) := by
  induction ds generalizing saved with
  | nil => simp [Probe.drainPending]
  | cons d ds ih =>
    simp only [Probe.drainPending]
    rw [saveDelayed_eq, ih, List.filterMap_cons]
    rcases hfd : finalizeDelayed d with - | t <;> simp [hfd, Probe.pyTruthy]

/-- C9: after every TorchProbe.post_step_hook invocation the pending list
is empty, and the rows the drain appended to the trace table are exactly
the pending records finalised in order: a record with no device event pair
is saved as queued, one with a pair is saved with the duration computed
from the pair, and one whose elapsed-time query raises is discarded. -/
theorem post_step_drains (s : ProbeState) (mid : Nat) (env : HookEnv) :
    (Probe.post_step_hook s mid env).pending = [] ∧
    (Probe.post_step_hook s mid env).saved =
      (Probe.post_step_phase s mid env).saved ++
        (Probe.post_step_phase s mid env).pending.filterMap finalizeDelayed := by
  constructor <;>
  · simp only [Probe.post_step_hook]
    rw [drainPending_eq]
    simp only [Probe.trace_variables]
    split <;> rfl

/-- base_post_step_hook always leaves the module-level counter at zero in
the profiling variant, which declares the global before assigning. -/
theorem base_post_step_offset (s : ProbeState) (mid : Nat) (env : HookEnv) :
    (Probe.base_post_step_hook s mid env).core.moduleCallOffset = 0 := rfl

/-- finalize_discovery does not touch the module-level tracer globals. -/
theorem finalize_discovery_core (s : ProbeState) :
    (Probe.finalize_discovery s).core = s.core := by
  simp only [Probe.finalize_discovery]
  split <;> rfl

/-- next_mod does not touch the module-level tracer globals. -/
theorem next_mod_core (s : ProbeState) :
    (Probe.next_mod s).core = s.core := by
  unfold Probe.next_mod
  split
  · rcases hr : s.rng with - | ⟨r0, rest⟩ <;> simp [Probe.draw, hr]
  · rfl

/-- The phase before the drain leaves the counter at zero. -/
theorem post_step_phase_offset (s : ProbeState) (mid : Nat) (env : HookEnv) :
    (Probe.post_step_phase s mid env).core.moduleCallOffset = 0 := by
  simp only [Probe.post_step_phase]
  split
  · rw [finalize_discovery_core]
    exact base_post_step_offset s mid env
  · rw [next_mod_core]
    exact base_post_step_offset s mid env

/-- C3 (code bug): in the profiling variant every post_step hook ends with
the module-level offset counter at zero, whatever was observed during the
step; in the torch tracer variant the reset statement binds a function
local instead of the module global, so a fresh tracer that sees one
pre-forward hook and then a post-step hook ends the step with the counter
at two, not zero. -/
theorem post_step_offset_reset :
    (∀ (s : ProbeState) (mid : Nat) (env : HookEnv),
      (Probe.post_step_hook s mid env).core.moduleCallOffset = 0) ∧
    (MemT.post_step_hook (MemT.pre_forward_hook MemT.memInit 1 env0) 2
        env0).core.moduleCallOffset = 2 := by
  constructor
  · intro s mid env
    have h1 : (Probe.post_step_hook s mid env).core =
        (Probe.post_step_phase s mid env).core := by
      simp only [Probe.post_step_hook]
      rw [drainPending_eq]
      simp only [Probe.trace_variables]
      split <;> rfl
    rw [h1]
    exact post_step_phase_offset s mid env
  · rfl

/-- In the discovery phase the sampler refuses to sample and registers the
module as a side effect. -/
theorem should_sample_discovery (s : ProbeState) (mid : Nat) (name : String)
    (hs : s.finalized = false) :
    Probe.should_sample s mid name = (false, Probe.register_mod s mid name) := by
  unfold Probe.should_sample
  simp [hs]

/-- In the discovery phase register_mod records the module name. -/
theorem register_mod_discovery (s : ProbeState) (mid : Nat) (name : String)
    (hs : s.finalized = false) :
    Probe.register_mod s mid name =
      { s with modNames := dictSet s.modNames mid name } := by
  unfold Probe.register_mod
  simp [hs]

/-- A dict assignment leaves its key present. -/
theorem dictSet_hasKey (l : List (Nat × String)) (k : Nat) (v : String) :
    (dictSet l k v).any (fun p => p.1 == k) = true := by
  unfold dictSet
  split
  · rename_i h
    rw [List.any_map]
    rw [List.any_eq_true] at h ⊢
    obtain ⟨x, hx, hxk⟩ := h
    refine ⟨x, hx, ?_⟩
    simp only [Function.comp]
    rw [if_pos hxk]
    simp
  · simp [List.any_append]

/-- In the discovery phase an unforced log_module_stage only registers the
module: no record is built and nothing is queued. -/
theorem log_discovery (s : ProbeState) (g : Stage) (mid : Nat) (env : HookEnv)
    (hs : s.finalized = false) :
    Probe.log_module_stage s g mid false env =
      { s with modNames := dictSet s.modNames mid env.modName } := by
  simp only [Probe.log_module_stage]
  rw [should_sample_discovery s mid env.modName hs,
    register_mod_discovery s mid env.modName hs]
  rfl

/-- In discovery the base post-step hook only registers the optimizer,
advances the dedup state, resets the counter and bumps the step global. -/
theorem base_post_step_discovery (s : ProbeState) (mid : Nat) (env : HookEnv)
    (hs : s.finalized = false) :
    Probe.base_post_step_hook s mid env =
      { s with
        modNames := dictSet s.modNames mid env.modName
        core := { process_hook s.core mid .postStep with moduleCallOffset := 0 }
        optimIter := s.optimIter + 1 } := by
  unfold Probe.base_post_step_hook
  rw [log_discovery s .postStep mid env hs]

/-- finalize_discovery touches only the sampler bookkeeping. -/
theorem finalize_discovery_fields (x : ProbeState) :
    (Probe.finalize_discovery x).pending = x.pending ∧
    (Probe.finalize_discovery x).saved = x.saved ∧
    (Probe.finalize_discovery x).modNames = x.modNames := by
  refine ⟨?_, ?_, ?_⟩ <;>
  · simp only [Probe.finalize_discovery]
    split <;> rfl

/-- trace_variables touches only the variables table. -/
theorem trace_variables_fields (x : ProbeState) (env : HookEnv) :
    (Probe.trace_variables x env).pending = x.pending ∧
    (Probe.trace_variables x env).saved = x.saved ∧
    (Probe.trace_variables x env).modNames = x.modNames := by
  refine ⟨?_, ?_, ?_⟩ <;>
  · unfold Probe.trace_variables
    split <;> rfl

/-- In the discovery phase the sampling strategy refuses to log and
registers the module as a side effect. -/
theorem mem_should_discovery (t : MemState) (mid : Nat) (name : String)
    (ht : t.discoveryDone = false) :
    MemT.should_log_module t mid name =
      (false, MemT.register_new_module t mid name) := by
  unfold MemT.should_log_module
  simp [ht]

/-- Registration never writes a trace row. -/
theorem mem_register_saved (t : MemState) (mid : Nat) (name : String) :
    (MemT.register_new_module t mid name).saved = t.saved := by
  unfold MemT.register_new_module
  split
  · rfl
  · split <;> rfl

/-- Registration in discovery leaves the module id present. -/
theorem mem_register_hasKey (t : MemState) (mid : Nat) (name : String)
    (ht : t.discoveryDone = false) :
    ((MemT.register_new_module t mid name).moduleNames.any
      (fun p => p.1 == mid)) = true := by
  unfold MemT.register_new_module
  rw [if_neg (by simp [ht])]
  split
  · rename_i h
    exact h
  · simp [List.any_append]

/-- Registration keeps the discovery flag. -/
theorem mem_register_done (t : MemState) (mid : Nat) (name : String) :
    (MemT.register_new_module t mid name).discoveryDone = t.discoveryDone := by
  unfold MemT.register_new_module
  split
  · rfl
  · split <;> rfl

/-- In the discovery phase an unforced log only registers the module. -/
theorem mem_log_discovery (t : MemState) (g : Stage) (mid : Nat)
    (env : HookEnv) (ht : t.discoveryDone = false) :
    MemT.log_module_stage t g mid false env =
      MemT.register_new_module t mid env.modName := by
  simp only [MemT.log_module_stage]
  rw [mem_should_discovery t mid env.modName ht]
  rfl

/-- begin_timing never writes a trace row. -/
theorem mem_begin_saved (t : MemState) (mid : Nat) (g : Stage)
    (env : HookEnv) :
    (MemT.begin_timing t mid g env).2.saved = t.saved := by
  simp only [MemT.begin_timing]
  split
  · rfl
  · split <;> rfl

/-- end_timing never writes a trace row. -/
theorem mem_end_saved (t : MemState) (mid : Nat) (g : Stage) (env : HookEnv) :
    (MemT.end_timing t mid g env).2.2.saved = t.saved := by
  simp only [MemT.end_timing]
  split
  · rfl
  · split <;> rfl

/-- A forced log always appends exactly one trace row. -/
theorem mem_log_force_len (t : MemState) (g : Stage) (mid : Nat)
    (env : HookEnv) :
    (MemT.log_module_stage t g mid true env).saved.length =
      t.saved.length + 1 := by
  simp only [MemT.log_module_stage]
  by_cases hl : t.logtime
  · by_cases hpre : g.isPre = true
    · rcases hbe : MemT.begin_timing t mid g env with ⟨tv, s2⟩
      have hsv : s2.saved = t.saved := by
        have := mem_begin_saved t mid g env
        rw [hbe] at this
        exact this
      simp [hl, hpre, hbe, hsv]
    · rcases hen : MemT.end_timing t mid g env with ⟨tv, dur, s2⟩
      have hsv : s2.saved = t.saved := by
        have := mem_end_saved t mid g env
        rw [hen] at this
        exact this
      simp [hl, hpre, hen, hsv]
  · simp [hl]

/-- complete_discovery never writes a trace row. -/
theorem mem_complete_saved (t : MemState) :
    (MemT.complete_discovery t).saved = t.saved := by
  simp only [MemT.complete_discovery]
  split <;> rfl

/-- C2 counterexample: in the profiling variant a discovery-phase pre-step
hook — one of the two stages the claim designates as force=True and
row-emitting — emits no trace row at all: the state is fresh (discovery not
finalised), and after the hook both the pending list and the trace table
are still empty; the hook only registered the optimizer. -/
theorem discovery_emission_cex :
    Probe.probeInit.finalized = false ∧
    (Probe.pre_step_hook Probe.probeInit 1 env0).pending = [] ∧
    (Probe.pre_step_hook Probe.probeInit 1 env0).saved = [] ∧
    (Probe.pre_step_hook Probe.probeInit 1 env0).modNames = [(1, "m")] :=
  ⟨rfl, rfl, rfl, rfl⟩

/-- C2 amended: the two tracer variants differ.  In the torch tracer
variant (torch/tracer/types.py, MemTracer) a discovery-phase hook appends a
trace row exactly when its stage is pre step or post step (the force=True
stages), and every other hook only registers its module.  In the profiling
variant (profiling/types.py, TorchProbe) the step hooks pass force=False,
so in discovery no hook emits any row — pending and the trace table are
unchanged — and every hook, the step stages included, registers its
module. -/
theorem discovery_emission (s : ProbeState) (t : MemState) (mid : Nat)
    (env : HookEnv) (g : Stage)
    (hs : s.finalized = false) (hp : s.pending = [])
    (ht : t.discoveryDone = false) :
    ((Probe.hook g s mid env).pending = [] ∧
      (Probe.hook g s mid env).saved = s.saved ∧
      (Probe.hook g s mid env).modNames.any (fun p => p.1 == mid) = true) ∧
    ((MemT.hook g t mid env).saved.length =
      t.saved.length + (if g = .preStep ∨ g = .postStep then 1 else 0)) ∧
    (¬(g = .preStep ∨ g = .postStep) →
      (MemT.hook g t mid env).moduleNames.any (fun p => p.1 == mid) = true) := by
  constructor
  · -- profiling variant: no rows in discovery, module registered
    cases g
    case postStep =>
      have hphase :
          (Probe.post_step_phase s mid env).pending = [] ∧
          (Probe.post_step_phase s mid env).saved = s.saved ∧
          (Probe.post_step_phase s mid env).modNames =
            dictSet s.modNames mid env.modName := by
        simp only [Probe.post_step_phase]
        rw [base_post_step_discovery s mid env hs]
        rw [if_pos (by simp [hs])]
        refine ⟨?_, ?_, ?_⟩
        · rw [(finalize_discovery_fields _).1]
          exact hp
        · rw [(finalize_discovery_fields _).2.1]
        · rw [(finalize_discovery_fields _).2.2]
      have hpost : Probe.hook .postStep s mid env = Probe.post_step_hook s mid env := rfl
      rw [hpost]
      simp only [Probe.post_step_hook]
      rw [drainPending_eq]
      refine ⟨?_, ?_, ?_⟩
      · rw [(trace_variables_fields _ env).1]
      · rw [(trace_variables_fields _ env).2.1]
        rw [hphase.1, hphase.2.1]
        simp
      · rw [(trace_variables_fields _ env).2.2]
        rw [hphase.2.2]
        exact dictSet_hasKey s.modNames mid env.modName
    all_goals
      refine ⟨?_, ?_, ?_⟩ <;>
        simp [Probe.hook, Probe.pre_forward_hook, Probe.post_forward_hook,
          Probe.pre_backward_hook, Probe.post_backward_hook,
          Probe.pre_step_hook, log_discovery s _ mid env hs, hp,
          dictSet_hasKey]
  · -- torch tracer variant: rows exactly on step stages, others register
    constructor
    · cases g
      case preStep =>
        have h : MemT.hook .preStep t mid env =
            MemT.log_module_stage { t with core := process_hook t.core mid .preStep }
              .preStep mid true env := rfl
        rw [h, mem_log_force_len]
        simp
      case postStep =>
        have h : MemT.hook .postStep t mid env =
            MemT.base_post_step_hook (MemT.complete_discovery t) mid env := by
          simp only [MemT.hook, MemT.post_step_hook]
          rw [if_pos (by simp [ht])]
        rw [h]
        simp only [MemT.base_post_step_hook]
        rw [mem_log_force_len]
        rw [show ({ MemT.complete_discovery t with
          core := process_hook (MemT.complete_discovery t).core mid .postStep } :
            MemState).saved = (MemT.complete_discovery t).saved from rfl]
        rw [mem_complete_saved]
        simp
      all_goals
        simp only [MemT.hook, MemT.pre_forward_hook, MemT.post_forward_hook,
          MemT.pre_backward_hook, MemT.post_backward_hook,
          mem_log_discovery, mem_register_saved, ht]
      all_goals simp
    · intro hg
      push_neg at hg
      cases g
      case preStep => exact absurd rfl hg.1
      case postStep => exact absurd rfl hg.2
      all_goals
        simp only [MemT.hook, MemT.pre_forward_hook, MemT.post_forward_hook,
          MemT.pre_backward_hook, MemT.post_backward_hook,
          mem_log_discovery, ht]
      all_goals exact mem_register_hasKey _ mid env.modName rfl

/-- Witness for C2 amended at concrete fresh tracers: a post-forward hook
in discovery emits nothing in either variant and registers the module, and
both are exercised through the amended theorem itself. -/
theorem discovery_emission_witness :
    (Probe.hook .postForward Probe.probeInit 1 env0).pending = [] ∧
    (MemT.hook .postForward MemT.memInit 1 env0).saved.length =
      MemT.memInit.saved.length + 0 := by
  have h := discovery_emission Probe.probeInit MemT.memInit 1 env0 .postForward
    rfl rfl rfl
  refine ⟨h.1.1, ?_⟩
  have h2 := h.2.1
  simpa using h2

/-- C10: when the script basename is exactly torchrun, the module toplevel
of probing_hook skips activation entirely: the library is not imported, no
init script runs, and PROBING keeps its original value, whatever it was. -/
theorem torchrun_guard (env0v : Option String)
    (research : String → String → Option Bool) :
    probingHookMain env0v "torchrun" research = ⟨env0v, false, false⟩ := rfl

end Probing
